import Mathlib

/-!
# Verification of the content-addressed cache (`app/services/cache_service.py`)

This file gives a shallow embedding of the `CacheService` class and proves the
specified properties about it.

* Identity computation (`compute_document_id`) is embedded with a full
  executable SHA-256 over byte lists (`sha256Hex`), including the 8192-byte
  chunked reading loop of the source (`readChunks`).
* The on-disk state of the cache root is embedded as `CacheState`: a flag for
  the existence of the root directory plus an association list from directory
  name (document id) to the directory's contents (`Entry`).  Each of the three
  artifact files (`chunks.json`, `embeddings.npy`, `metadata.json`) is either
  absent (`none`) or present (`some`) with a byte size and a parse result
  (`parsed = none` models a file whose deserialization raises).
* JSON serialization of chunks and metadata is value-faithful for the
  JSON-representable values the service stores, so chunk records and metadata
  are carried as abstract types `χ` and `μ`.  The float32 conversion performed
  by `np.array(embeddings, dtype=np.float32)` is carried as an abstract
  rounding function `f32 : ε → ε` applied elementwise; `np.load(...).tolist()`
  returns exactly the stored float32 values.
* I/O faults inside the `try` block of `save_chunks_and_embeddings` are
  modelled by an explicit fault parameter naming the artifact write that
  raises; `np.array` on a ragged (non-rectangular) embedding list raises as
  well and is modelled intrinsically.
-/

/-! ## SHA-256 over byte lists -/

/-- Truncate to a 32-bit word. -/
def w32 (x : Nat) : Nat := x % 2 ^ 32

/-- Right rotation of a 32-bit word. -/
def rotr32 (n x : Nat) : Nat := w32 ((x >>> n) ||| (x <<< (32 - n)))

/-- SHA-256 choice function. -/
def shaCh (x y z : Nat) : Nat := (x &&& y) ^^^ ((x ^^^ 0xFFFFFFFF) &&& z)

/-- SHA-256 majority function. -/
def shaMaj (x y z : Nat) : Nat := (x &&& y) ^^^ (x &&& z) ^^^ (y &&& z)

/-- SHA-256 big sigma 0. -/
def bigS0 (x : Nat) : Nat := rotr32 2 x ^^^ rotr32 13 x ^^^ rotr32 22 x

/-- SHA-256 big sigma 1. -/
def bigS1 (x : Nat) : Nat := rotr32 6 x ^^^ rotr32 11 x ^^^ rotr32 25 x

/-- SHA-256 small sigma 0. -/
def smallS0 (x : Nat) : Nat := rotr32 7 x ^^^ rotr32 18 x ^^^ (x >>> 3)

/-- SHA-256 small sigma 1. -/
def smallS1 (x : Nat) : Nat := rotr32 17 x ^^^ rotr32 19 x ^^^ (x >>> 10)

/-- SHA-256 round constants (FIPS 180-4, here in decimal). -/
def shaK : List Nat :=
  [1116352408, 1899447441, 3049323471, 3921009573, 961987163, 1508970993,
   2453635748, 2870763221, 3624381080, 310598401, 607225278, 1426881987,
   1925078388, 2162078206, 2614888103, 3248222580, 3835390401, 4022224774,
   264347078, 604807628, 770255983, 1249150122, 1555081692, 1996064986,
   2554220882, 2821834349, 2952996808, 3210313671, 3336571891, 3584528711,
   113926993, 338241895, 666307205, 773529912, 1294757372, 1396182291,
   1695183700, 1986661051, 2177026350, 2456956037, 2730485921, 2820302411,
   3259730800, 3345764771, 3516065817, 3600352804, 4094571909, 275423344,
   430227734, 506948616, 659060556, 883997877, 958139571, 1322822218,
   1537002063, 1747873779, 1955562222, 2024104815, 2227730452, 2361852424,
   2428436474, 2756734187, 3204031479, 3329325298]

/-- The eight 32-bit words of a SHA-256 state. -/
structure Hash8 where
  a : Nat
  b : Nat
  c : Nat
  d : Nat
  e : Nat
  f : Nat
  g : Nat
  h : Nat
deriving DecidableEq

/-- SHA-256 initial hash value (FIPS 180-4, here in decimal). -/
def initH : Hash8 :=
  ⟨1779033703, 3144134277, 1013904242, 2773480762,
   1359893119, 2600822924, 528734635, 1541459225⟩

/-- `k` big-endian bytes of `n`. -/
def beBytes : Nat → Nat → List Nat
  | 0, _ => []
  | k + 1, n => (n >>> (8 * k)) % 256 :: beBytes k n

/-- Group a byte list into big-endian 32-bit words. -/
def beWords : List Nat → List Nat
  | a :: b :: c :: d :: rest => (a * 2 ^ 24 + b * 2 ^ 16 + c * 2 ^ 8 + d) :: beWords rest
  | _ => []

/-- SHA-256 padding: append `0x80`, zero bytes up to 56 mod 64, and the
64-bit big-endian bit length. -/
def sha256Pad (msg : List Nat) : List Nat :=
  msg ++ 128 :: List.replicate ((119 - msg.length % 64) % 64) 0 ++ beBytes 8 (8 * msg.length)

/-- Extend the 16 words of a block to the 64-word message schedule. -/
def extendSchedule (w : List Nat) : List Nat :=
  (List.range 48).foldl
    (fun w _ =>
      let n := w.length
      w ++ [w32 (smallS1 (w.getD (n - 2) 0) + w.getD (n - 7) 0 +
                 smallS0 (w.getD (n - 15) 0) + w.getD (n - 16) 0)])
    w

/-- One SHA-256 round. -/
def shaRound (st : Hash8) (kw : Nat × Nat) : Hash8 :=
  let t1 := w32 (st.h + bigS1 st.e + shaCh st.e st.f st.g + kw.1 + kw.2)
  let t2 := w32 (bigS0 st.a + shaMaj st.a st.b st.c)
  ⟨w32 (t1 + t2), st.a, st.b, st.c, w32 (st.d + t1), st.e, st.f, st.g⟩

/-- Compress one 64-byte block into the running state. -/
def compressBlock (st : Hash8) (block : List Nat) : Hash8 :=
  let w := extendSchedule (beWords block)
  let r := (shaK.zip w).foldl shaRound st
  ⟨w32 (st.a + r.a), w32 (st.b + r.b), w32 (st.c + r.c), w32 (st.d + r.d),
   w32 (st.e + r.e), w32 (st.f + r.f), w32 (st.g + r.g), w32 (st.h + r.h)⟩

/-- Split a list into consecutive chunks of `n` elements (the last may be
shorter); embeds the `f.read(8192)` loop of `compute_document_id`. -/
def readChunks {α : Type} (n : Nat) (l : List α) : List (List α) :=
  if _h : n = 0 then []
  else
    match l with
    | [] => []
    | x :: xs => (x :: xs).take n :: readChunks n ((x :: xs).drop n)
termination_by l.length
decreasing_by
  simp [List.length_drop]
  omega

/-- The SHA-256 state after absorbing a whole message. -/
def sha256Words (msg : List Nat) : Hash8 :=
  (readChunks 64 (sha256Pad msg)).foldl compressBlock initH

/-- Lowercase hexadecimal digit characters. -/
def hexCharOf (n : Nat) : Char :=
  if n < 10 then Char.ofNat (48 + n) else Char.ofNat (87 + n)

/-- The eight lowercase hex characters of a 32-bit word. -/
def wordHex (x : Nat) : List Char :=
  [hexCharOf ((x >>> 28) % 16), hexCharOf ((x >>> 24) % 16),
   hexCharOf ((x >>> 20) % 16), hexCharOf ((x >>> 16) % 16),
   hexCharOf ((x >>> 12) % 16), hexCharOf ((x >>> 8) % 16),
   hexCharOf ((x >>> 4) % 16), hexCharOf (x % 16)]

/-- The lowercase hex SHA-256 digest of a byte list (`hexdigest()`). -/
def sha256Hex (msg : List Nat) : String :=
  let st := sha256Words msg
  String.mk (wordHex st.a ++ wordHex st.b ++ wordHex st.c ++ wordHex st.d ++
             wordHex st.e ++ wordHex st.f ++ wordHex st.g ++ wordHex st.h)

/-! ## Identity computation (`compute_document_id`) -/

/-- Errors surfaced by `compute_document_id`. -/
inductive IdentityError where
  | fileNotFound : IdentityError
deriving DecidableEq

/-- Embedding of `CacheService.compute_document_id`: the source filesystem is a
map from path to file bytes (`none` when the path does not exist).  The source
checks `file_path.exists()`, then streams the file through `hashlib.sha256` in
8192-byte reads and returns `hexdigest()`. -/
def computeDocumentId (fs : String → Option (List Nat)) (filePath : String) :
    Except IdentityError String :=
  match fs filePath with
  | none => Except.error IdentityError.fileNotFound
  | some bytes => Except.ok (sha256Hex ((readChunks 8192 bytes).flatten))

/-- Reassembling the consecutive chunks gives back the original list. -/
theorem readChunks_flatten {α : Type} (n : Nat) (hn : 0 < n) (l : List α) :
    (readChunks n l).flatten = l := by
  rw [readChunks.eq_def]
  split
  · omega
  · match l with
    | [] => rfl
    | x :: xs =>
      have hlt : ((x :: xs).drop n).length < (x :: xs).length := by
        simp [List.length_drop]; omega
      simp only [List.flatten_cons, readChunks_flatten n hn ((x :: xs).drop n)]
      exact List.take_append_drop n (x :: xs)
termination_by l.length

/-- The sixteen lowercase hexadecimal characters. -/
def lowerHexChars : List Char := "0123456789abcdef".data

theorem hexCharOf_mem {n : Nat} (h : n < 16) : hexCharOf n ∈ lowerHexChars := by
  interval_cases n <;> decide

theorem wordHex_mem (x : Nat) : ∀ c ∈ wordHex x, c ∈ lowerHexChars := by
  intro c hc
  simp only [wordHex, List.mem_cons, List.not_mem_nil, or_false] at hc
  rcases hc with h | h | h | h | h | h | h | h <;>
    exact h ▸ hexCharOf_mem (Nat.mod_lt _ (by norm_num))

theorem sha256Hex_length (msg : List Nat) : (sha256Hex msg).length = 64 := by
  simp [sha256Hex, String.length, wordHex]

theorem sha256Hex_lowercase (msg : List Nat) :
    ∀ c ∈ (sha256Hex msg).data, c ∈ lowerHexChars := by
  intro c hc
  simp only [sha256Hex, String.mk, List.mem_append] at hc
  rcases hc with ((((((h | h) | h) | h) | h) | h) | h) | h <;> exact wordHex_mem _ _ h

/-! ## On-disk cache state

The cache root (`self.cache_dir`) is a directory holding one subdirectory per
document id.  `CacheState` records whether the root directory exists and the
association list of entry subdirectories.  Directory names on a real
filesystem are unique, so the association list carries at most one binding per
id in every state the operations construct.  The model's keys name proper
subdirectories of the root, as the 64-character hex identities of the source
always do. -/

/-- One artifact file on disk: its byte size, and its parse result
(`parsed = none` models a file whose deserialization raises). -/
structure Artifact (α : Type) where
  parsed : Option α
  sizeBytes : Nat
deriving DecidableEq

/-- The contents of one entry directory `<cache_root>/<doc_id>/`: each of
`chunks.json`, `embeddings.npy`, `metadata.json` may be absent. -/
structure Entry (χ ε μ : Type) where
  chunksFile : Option (Artifact (List χ))
  embeddingsFile : Option (Artifact (List (List ε)))
  metadataFile : Option (Artifact μ)
deriving DecidableEq

/-- The on-disk state of the cache root. -/
structure CacheState (χ ε μ : Type) where
  rootExists : Bool
  entries : List (String × Entry χ ε μ)
deriving DecidableEq

variable {χ ε μ : Type}

/-- Look up the entry directory named `docId`. -/
def lookupDir : List (String × Entry χ ε μ) → String → Option (Entry χ ε μ)
  | [], _ => none
  | p :: rest, docId => if p.1 = docId then some p.2 else lookupDir rest docId

/-- Write the entry directory named `docId` (replacing its previous
contents in place, or appending a new directory). -/
def setDir : List (String × Entry χ ε μ) → String → Entry χ ε μ → List (String × Entry χ ε μ)
  | [], docId, e => [(docId, e)]
  | p :: rest, docId, e => if p.1 = docId then (docId, e) :: rest else p :: setDir rest docId e

/-- Remove the entry directory named `docId` (`shutil.rmtree`). -/
def removeDir : List (String × Entry χ ε μ) → String → List (String × Entry χ ε μ)
  | [], _ => []
  | p :: rest, docId =>
    if p.1 = docId then removeDir rest docId else p :: removeDir rest docId

/-- Look up an entry in a cache state. -/
def lookupEntry (s : CacheState χ ε μ) (docId : String) : Option (Entry χ ε μ) :=
  lookupDir s.entries docId

/-- Embedding of `CacheService.cache_exists`: the entry directory and all
three artifact files must exist. -/
def cacheExists (s : CacheState χ ε μ) (docId : String) : Bool :=
  match lookupEntry s docId with
  | none => false
  | some e => e.chunksFile.isSome && e.embeddingsFile.isSome && e.metadataFile.isSome

/-- The artifact writes inside the `try` block of
`save_chunks_and_embeddings`, in program order. -/
inductive SaveStep where
  | writeChunks : SaveStep
  | writeEmbeddings : SaveStep
  | writeMetadata : SaveStep
deriving DecidableEq

/-- Errors surfaced by `save_chunks_and_embeddings`: the `ValueError` raised
on a length mismatch, and the wrapping `Exception("Failed to save cache: ...")`
re-raised from the `except` block. -/
inductive SaveError where
  | valueError : SaveError
  | wrapped : SaveStep → SaveError
deriving DecidableEq

/-- `np.array(embeddings, dtype=np.float32)` succeeds exactly on rectangular
(equal row length) lists of lists; on ragged input it raises. -/
def isRectangular : List (List ε) → Bool
  | [] => true
  | v :: vs => vs.all (fun w => w.length = v.length)

/-- Result of a save call: the error surfaced (if any) and the resulting
on-disk state. -/
structure SaveOutcome (χ ε μ : Type) where
  err : Option SaveError
  state : CacheState χ ε μ
deriving DecidableEq

/-- Embedding of `CacheService.save_chunks_and_embeddings`.

`f32` is the float64-to-float32 rounding applied elementwise by
`np.array(embeddings, dtype=np.float32)`; `sizes` are the byte sizes of the
three serialized artifacts; `fault` injects an I/O fault at the named write
(`none` for a fault-free filesystem).

The source validates the lengths before touching the disk, then runs
`cache_path.mkdir(parents=True, exist_ok=True)` (creating root and entry
directory), then writes `chunks.json`, `embeddings.npy`, `metadata.json` in
order inside a `try` block.  On any exception in the block it removes the
whole entry directory (`shutil.rmtree(cache_path, ignore_errors=True)`) and
raises the wrapped error, so the intermediate partially-written directory
contents never survive; the failure state below is therefore the original
entries with the `docId` directory removed, under an existing root. -/
def saveChunksAndEmbeddings (f32 : ε → ε) (s : CacheState χ ε μ) (docId : String)
    (chunks : List χ) (embeddings : List (List ε)) (metadata : μ)
    (sizes : Nat × Nat × Nat) (fault : Option SaveStep) : SaveOutcome χ ε μ :=
  if chunks.length ≠ embeddings.length then
    ⟨some SaveError.valueError, s⟩
  else
    let prev := (lookupDir s.entries docId).getD ⟨none, none, none⟩
    let failState : CacheState χ ε μ := ⟨true, removeDir s.entries docId⟩
    if fault = some SaveStep.writeChunks then
      ⟨some (SaveError.wrapped SaveStep.writeChunks), failState⟩
    else
      let e1 : Entry χ ε μ := { prev with chunksFile := some ⟨some chunks, sizes.1⟩ }
      if fault = some SaveStep.writeEmbeddings ∨ isRectangular embeddings = false then
        ⟨some (SaveError.wrapped SaveStep.writeEmbeddings), failState⟩
      else
        let e2 : Entry χ ε μ :=
          { e1 with embeddingsFile := some ⟨some (embeddings.map (List.map f32)), sizes.2.1⟩ }
        if fault = some SaveStep.writeMetadata then
          ⟨some (SaveError.wrapped SaveStep.writeMetadata), failState⟩
        else
          let e3 : Entry χ ε μ := { e2 with metadataFile := some ⟨some metadata, sizes.2.2⟩ }
          ⟨none, ⟨true, setDir s.entries docId e3⟩⟩

/-- The in-memory bundle returned by a successful load (the dictionary with
keys `chunks`, `embeddings`, `metadata`). -/
structure CacheBundle (χ ε μ : Type) where
  chunks : List χ
  embeddings : List (List ε)
  metadata : μ
deriving DecidableEq

/-- Embedding of `CacheService.load_chunks_and_embeddings`: `none` when the
complete entry does not exist, when any artifact fails to deserialize (the
`except` block catches the exception), or when the loaded chunk count differs
from the loaded embedding count. -/
def loadChunksAndEmbeddings (s : CacheState χ ε μ) (docId : String) :
    Option (CacheBundle χ ε μ) :=
  if cacheExists s docId = false then none
  else
    match lookupEntry s docId with
    | none => none
    | some e =>
      match e.chunksFile, e.embeddingsFile, e.metadataFile with
      | some cf, some ef, some mf =>
        match cf.parsed, ef.parsed, mf.parsed with
        | some chunks, some embeddings, some metadata =>
          if chunks.length ≠ embeddings.length then none
          else some ⟨chunks, embeddings, metadata⟩
        | _, _, _ => none
      | _, _, _ => none

/-- The statistics dictionary returned by `get_cache_stats` (the derived
`total_size_mb` field is `total_size_bytes` rescaled and rounded and carries
no further information). -/
structure CacheStats where
  totalDocuments : Nat
  totalSizeBytes : Nat
  documentIds : List String
deriving DecidableEq

/-- Bytes occupied by one artifact slot. -/
def artifactSize {α : Type} : Option (Artifact α) → Nat
  | none => 0
  | some f => f.sizeBytes

/-- Bytes occupied by the files of one entry directory (`rglob` sum). -/
def entrySize (e : Entry χ ε μ) : Nat :=
  artifactSize e.chunksFile + artifactSize e.embeddingsFile + artifactSize e.metadataFile

/-- Embedding of `CacheService.get_cache_stats`: a non-existent root reports
zeros; otherwise every immediate subdirectory of the root counts as one
document, and sizes are summed recursively below each. -/
def getCacheStats (s : CacheState χ ε μ) : CacheStats :=
  if s.rootExists = false then ⟨0, 0, []⟩
  else
    ⟨s.entries.length,
     (s.entries.map (fun p => entrySize p.2)).sum,
     s.entries.map (fun p => p.1)⟩

/-- The result dictionary of `clear_cache`. -/
structure ClearResult where
  cleared : Bool
  message : String
  documentsCleared : Nat
deriving DecidableEq

/-- Embedding of `CacheService.clear_cache`.  The source branches on the
truthiness `if doc_id:`, so both `None` and the empty string select the
clear-everything branch.  In the clear-everything branch the previous count is
taken from `get_cache_stats`, and the root is removed and recreated only
`if self.cache_dir.exists()`. -/
def clearCache (s : CacheState χ ε μ) (docId : Option String) :
    ClearResult × CacheState χ ε μ :=
  if docId.getD "" ≠ "" then
    let id := docId.getD ""
    if (lookupDir s.entries id).isSome then
      (⟨true, "Cleared cache for document " ++ id, 1⟩,
       ⟨s.rootExists, removeDir s.entries id⟩)
    else
      (⟨false, "No cache found for document " ++ id, 0⟩, s)
  else
    let prevCount := (getCacheStats s).totalDocuments
    if s.rootExists then
      (⟨true, "Cleared entire cache", prevCount⟩, ⟨true, []⟩)
    else
      (⟨true, "Cleared entire cache", prevCount⟩, s)

/-- External corruption used by the specification's missing-artifact test:
delete only `metadata.json` from an entry directory. -/
def deleteMetadataFile (s : CacheState χ ε μ) (docId : String) : CacheState χ ε μ :=
  match lookupDir s.entries docId with
  | none => s
  | some e => ⟨s.rootExists, setDir s.entries docId { e with metadataFile := none }⟩

/-- Number of entry directories whose id actually loads. -/
def loadableCount (s : CacheState χ ε μ) : Nat :=
  s.entries.countP (fun p => (loadChunksAndEmbeddings s p.1).isSome)

/-! ## Association-list lemmas -/

theorem lookupDir_setDir_self (l : List (String × Entry χ ε μ)) (docId : String)
    (e : Entry χ ε μ) : lookupDir (setDir l docId e) docId = some e := by
  induction l with
  | nil => simp [setDir, lookupDir]
  | cons p rest ih =>
    obtain ⟨k, v⟩ := p
    by_cases h : k = docId
    · simp [setDir, lookupDir, h]
    · simp [setDir, lookupDir, h, ih]

theorem lookupDir_setDir_ne (l : List (String × Entry χ ε μ)) (docId other : String)
    (e : Entry χ ε μ) (h : other ≠ docId) :
    lookupDir (setDir l docId e) other = lookupDir l other := by
  have hdo : ¬docId = other := fun h' => h h'.symm
  induction l with
  | nil => simp [setDir, lookupDir, hdo]
  | cons p rest ih =>
    obtain ⟨k, v⟩ := p
    by_cases hp : k = docId
    · subst hp
      simp [setDir, lookupDir, hdo]
    · by_cases ho : k = other
      · subst ho
        simp [setDir, lookupDir, hp]
      · simp [setDir, lookupDir, hp, ho, ih]

theorem lookupDir_removeDir_self (l : List (String × Entry χ ε μ)) (docId : String) :
    lookupDir (removeDir l docId) docId = none := by
  induction l with
  | nil => rfl
  | cons p rest ih =>
    obtain ⟨k, v⟩ := p
    by_cases h : k = docId <;> simp [removeDir, lookupDir, h, ih]

theorem lookupDir_removeDir_ne (l : List (String × Entry χ ε μ)) (docId other : String)
    (h : other ≠ docId) :
    lookupDir (removeDir l docId) other = lookupDir l other := by
  induction l with
  | nil => rfl
  | cons p rest ih =>
    obtain ⟨k, v⟩ := p
    by_cases hp : k = docId
    · subst hp
      have hk : ¬k = other := fun h' => h h'.symm
      simp [removeDir, lookupDir, hk, ih]
    · by_cases ho : k = other
      · subst ho
        simp [removeDir, lookupDir, hp]
      · simp [removeDir, lookupDir, hp, ho, ih]

/-! ## Claim theorems -/

/-- C5: for an existing readable file, `compute_document_id` returns the
SHA-256 digest of the file's exact byte content (the 8192-byte reading loop
hashes exactly the concatenation of the chunks), rendered as 64 lowercase hex
characters; byte-identical files yield equal identities regardless of name or
path; a missing file fails with `FileNotFoundError`. -/
theorem computeDocumentId_spec (fs fs' : String → Option (List Nat))
    (p p' : String) (bytes : List Nat) :
    (fs p = some bytes →
      computeDocumentId fs p = Except.ok (sha256Hex bytes) ∧
      (sha256Hex bytes).length = 64 ∧
      (∀ c ∈ (sha256Hex bytes).data, c ∈ lowerHexChars) ∧
      (fs' p' = some bytes → computeDocumentId fs' p' = computeDocumentId fs p)) ∧
    (fs p = none →
      computeDocumentId fs p = Except.error IdentityError.fileNotFound) := by
  constructor
  · intro h
    have hid : computeDocumentId fs p = Except.ok (sha256Hex bytes) := by
      simp [computeDocumentId, h, readChunks_flatten 8192 (by norm_num) bytes]
    refine ⟨hid, sha256Hex_length bytes, sha256Hex_lowercase bytes, ?_⟩
    intro h'
    rw [hid]
    simp [computeDocumentId, h', readChunks_flatten 8192 (by norm_num) bytes]
  · intro h
    simp [computeDocumentId, h]

/-- Witness for C5: two distinct paths holding the same bytes get the same
identity, and the identity is the digest of the content. -/
theorem computeDocumentId_spec_witness :
    computeDocumentId (fun _ => some [97, 98, 99]) "docs/a.txt" =
      Except.ok (sha256Hex [97, 98, 99]) ∧
    computeDocumentId (fun _ => some [97, 98, 99]) "other/b.txt" =
      computeDocumentId (fun _ => some [97, 98, 99]) "docs/a.txt" := by
  have h := (computeDocumentId_spec (fun _ => some [97, 98, 99])
    (fun _ => some [97, 98, 99]) "docs/a.txt" "other/b.txt" [97, 98, 99]).1 rfl
  exact ⟨h.1, h.2.2.2 rfl⟩

/-- C3: a chunk/embedding count mismatch fails with the `ValueError` raised
before any I/O: the returned on-disk state is exactly the input state, for any
fault environment. -/
theorem save_mismatch_rejected (f32 : ε → ε) (s : CacheState χ ε μ) (docId : String)
    (chunks : List χ) (embeddings : List (List ε)) (metadata : μ)
    (sizes : Nat × Nat × Nat) (fault : Option SaveStep)
    (h : chunks.length ≠ embeddings.length) :
    saveChunksAndEmbeddings f32 s docId chunks embeddings metadata sizes fault =
      ⟨some SaveError.valueError, s⟩ := by
  simp [saveChunksAndEmbeddings, h]

/-- Witness for C3: three chunks and two embeddings are rejected with the
state untouched. -/
theorem save_mismatch_rejected_witness :
    saveChunksAndEmbeddings (fun x => x) (⟨true, []⟩ : CacheState Nat Nat Nat) "d"
      [1, 2, 3] [[1], [2]] 0 (1, 1, 1) none =
      ⟨some SaveError.valueError, ⟨true, []⟩⟩ :=
  save_mismatch_rejected _ _ _ _ _ _ _ _ (by decide)

/-- A fault-free save with matching counts and rectangular embeddings writes
the three artifacts under the entry directory. -/
theorem save_success (f32 : ε → ε) (s : CacheState χ ε μ) (docId : String)
    (chunks : List χ) (embeddings : List (List ε)) (metadata : μ)
    (sizes : Nat × Nat × Nat)
    (hlen : chunks.length = embeddings.length)
    (hrect : isRectangular embeddings = true) :
    saveChunksAndEmbeddings f32 s docId chunks embeddings metadata sizes none =
      ⟨none, ⟨true, setDir s.entries docId
        ⟨some ⟨some chunks, sizes.1⟩,
         some ⟨some (embeddings.map (List.map f32)), sizes.2.1⟩,
         some ⟨some metadata, sizes.2.2⟩⟩⟩⟩ := by
  simp [saveChunksAndEmbeddings, hlen, hrect]

/-- C1: after a successful save (equal counts and fixed-dimension, i.e.
rectangular, embeddings; no injected fault), load returns the same chunks,
the same metadata, and exactly the float32-rounded embedding values. -/
theorem save_load_roundtrip (f32 : ε → ε) (s : CacheState χ ε μ) (docId : String)
    (chunks : List χ) (embeddings : List (List ε)) (metadata : μ)
    (sizes : Nat × Nat × Nat)
    (_hne : chunks ≠ []) (hlen : chunks.length = embeddings.length)
    (hrect : isRectangular embeddings = true) :
    (saveChunksAndEmbeddings f32 s docId chunks embeddings metadata sizes none).err = none ∧
    loadChunksAndEmbeddings
        (saveChunksAndEmbeddings f32 s docId chunks embeddings metadata sizes none).state
        docId =
      some ⟨chunks, embeddings.map (List.map f32), metadata⟩ := by
  rw [save_success f32 s docId chunks embeddings metadata sizes hlen hrect]
  refine ⟨rfl, ?_⟩
  simp [loadChunksAndEmbeddings, cacheExists, lookupEntry, lookupDir_setDir_self, hlen]

/-- Witness for C1 at a concrete save/load pair. -/
theorem save_load_roundtrip_witness :
    (saveChunksAndEmbeddings (fun x => x) (⟨true, []⟩ : CacheState Nat Nat Nat) "d"
      [7] [[1, 2]] 9 (10, 20, 30) none).err = none ∧
    loadChunksAndEmbeddings (saveChunksAndEmbeddings (fun x => x)
      (⟨true, []⟩ : CacheState Nat Nat Nat) "d" [7] [[1, 2]] 9 (10, 20, 30) none).state "d" =
      some ⟨[7], [[1, 2]], 9⟩ := by
  have h := save_load_roundtrip (fun x => x) (⟨true, []⟩ : CacheState Nat Nat Nat) "d"
    [7] [[1, 2]] 9 (10, 20, 30) (by decide) (by decide) (by decide)
  simpa using h

/-- C2: if any artifact write inside the `try` block fails — an injected I/O
fault at any of the three writes, or the `np.array` failure on ragged
embeddings — save surfaces the wrapped error and the entire entry directory
has been removed: afterwards there is no entry at all for that identity (one
of the two outcomes the claim allows), never a half-written one. -/
theorem save_failure_atomic (f32 : ε → ε) (s : CacheState χ ε μ) (docId : String)
    (chunks : List χ) (embeddings : List (List ε)) (metadata : μ)
    (sizes : Nat × Nat × Nat) (fault : Option SaveStep)
    (hlen : chunks.length = embeddings.length)
    (hfail : fault ≠ none ∨ isRectangular embeddings = false) :
    ∃ step,
      saveChunksAndEmbeddings f32 s docId chunks embeddings metadata sizes fault =
        ⟨some (SaveError.wrapped step), ⟨true, removeDir s.entries docId⟩⟩ ∧
      lookupEntry
        (saveChunksAndEmbeddings f32 s docId chunks embeddings metadata sizes fault).state
        docId = none := by
  have hrm : lookupDir (removeDir s.entries docId) docId = none :=
    lookupDir_removeDir_self s.entries docId
  match fault with
  | none =>
    rcases hfail with h | h
    · exact absurd rfl h
    · refine ⟨SaveStep.writeEmbeddings, ?_, ?_⟩ <;>
        simp [saveChunksAndEmbeddings, hlen, h, lookupEntry, hrm]
  | some SaveStep.writeChunks =>
    refine ⟨SaveStep.writeChunks, ?_, ?_⟩ <;>
      simp [saveChunksAndEmbeddings, hlen, lookupEntry, hrm]
  | some SaveStep.writeEmbeddings =>
    refine ⟨SaveStep.writeEmbeddings, ?_, ?_⟩ <;>
      simp [saveChunksAndEmbeddings, hlen, lookupEntry, hrm]
  | some SaveStep.writeMetadata =>
    by_cases hr : isRectangular embeddings = false
    · refine ⟨SaveStep.writeEmbeddings, ?_, ?_⟩ <;>
        simp [saveChunksAndEmbeddings, hlen, hr, lookupEntry, hrm]
    · refine ⟨SaveStep.writeMetadata, ?_, ?_⟩ <;>
        simp [saveChunksAndEmbeddings, hlen, hr, lookupEntry, hrm]

/-- Witness for C2: a fault at the metadata write over a cache holding a
previous entry for the same id leaves no entry for it. -/
theorem save_failure_atomic_witness :
    ∃ step,
      saveChunksAndEmbeddings (fun x => x)
          (⟨true, [("d", ⟨some ⟨some [5], 1⟩, some ⟨some [[6]], 1⟩, some ⟨some 7, 1⟩⟩)]⟩ :
            CacheState Nat Nat Nat)
          "d" [1] [[2]] 0 (1, 1, 1) (some SaveStep.writeMetadata) =
        ⟨some (SaveError.wrapped step),
         ⟨true, removeDir [("d", ⟨some ⟨some [5], 1⟩, some ⟨some [[6]], 1⟩, some ⟨some 7, 1⟩⟩)] "d"⟩⟩ ∧
      lookupEntry
        (saveChunksAndEmbeddings (fun x => x)
          (⟨true, [("d", ⟨some ⟨some [5], 1⟩, some ⟨some [[6]], 1⟩, some ⟨some 7, 1⟩⟩)]⟩ :
            CacheState Nat Nat Nat)
          "d" [1] [[2]] 0 (1, 1, 1) (some SaveStep.writeMetadata)).state "d" = none :=
  save_failure_atomic _ _ _ _ _ _ _ _ (by decide) (Or.inl (by decide))

/-- C4: load never raises — it is a total function into `Option` — and every
failure mode degrades to the absent result `none`: an absent or incomplete
entry, any artifact that fails to parse, and (contrapositively) any loaded
chunk/embedding count mismatch, since every returned bundle satisfies the
count invariant. -/
theorem load_graceful (s : CacheState χ ε μ) (docId : String) :
    (cacheExists s docId = false → loadChunksAndEmbeddings s docId = none) ∧
    (∀ e, lookupEntry s docId = some e →
      ((∃ f, e.chunksFile = some f ∧ f.parsed = none) ∨
       (∃ f, e.embeddingsFile = some f ∧ f.parsed = none) ∨
       (∃ f, e.metadataFile = some f ∧ f.parsed = none)) →
      loadChunksAndEmbeddings s docId = none) ∧
    (∀ b, loadChunksAndEmbeddings s docId = some b →
      b.chunks.length = b.embeddings.length) := by
  refine ⟨?_, ?_, ?_⟩
  · intro h
    simp [loadChunksAndEmbeddings, h]
  · intro e he hcorr
    obtain ⟨ocf, oef, omf⟩ := e
    match ocf, oef, omf with
    | none, _, _ =>
      simp [loadChunksAndEmbeddings, cacheExists, he]
    | some cf, none, _ =>
      simp [loadChunksAndEmbeddings, cacheExists, he]
    | some cf, some ef, none =>
      simp [loadChunksAndEmbeddings, cacheExists, he]
    | some cf, some ef, some mf =>
      obtain ⟨pc, szc⟩ := cf
      obtain ⟨pe, sze⟩ := ef
      obtain ⟨pm, szm⟩ := mf
      match pc, pe, pm with
      | none, _, _ =>
        simp [loadChunksAndEmbeddings, cacheExists, he]
      | some chunks, none, _ =>
        simp [loadChunksAndEmbeddings, cacheExists, he]
      | some chunks, some embeddings, none =>
        simp [loadChunksAndEmbeddings, cacheExists, he]
      | some chunks, some embeddings, some metadata =>
        exfalso
        rcases hcorr with ⟨f, hf, hp⟩ | ⟨f, hf, hp⟩ | ⟨f, hf, hp⟩ <;>
          (injection hf with hf; subst hf) <;> exact Option.noConfusion hp
  · intro b hb
    unfold loadChunksAndEmbeddings at hb
    split at hb
    · exact Option.noConfusion hb
    · rcases hl : lookupEntry s docId with _ | e <;> rw [hl] at hb
      · exact Option.noConfusion hb
      · obtain ⟨ocf, oef, omf⟩ := e
        match ocf, oef, omf with
        | none, _, _ => exact Option.noConfusion hb
        | some cf, none, _ => exact Option.noConfusion hb
        | some cf, some ef, none => exact Option.noConfusion hb
        | some cf, some ef, some mf =>
          obtain ⟨pc, szc⟩ := cf
          obtain ⟨pe, sze⟩ := ef
          obtain ⟨pm, szm⟩ := mf
          match pc, pe, pm with
          | none, _, _ => exact Option.noConfusion hb
          | some chunks, none, _ => exact Option.noConfusion hb
          | some chunks, some embeddings, none => exact Option.noConfusion hb
          | some chunks, some embeddings, some metadata =>
            change (if chunks.length ≠ embeddings.length then none
              else some (⟨chunks, embeddings, metadata⟩ : CacheBundle χ ε μ)) = some b at hb
            rcases eq_or_ne chunks.length embeddings.length with hlen2 | hlen2
            · rw [if_neg (not_ne_iff.mpr hlen2)] at hb
              injection hb with hb
              subst hb
              exact hlen2
            · rw [if_pos hlen2] at hb
              exact Option.noConfusion hb

/-- Witness for C4 on a state with one corrupt-chunks entry: both the
incomplete-entry case and the corrupt-artifact case return `none`. -/
theorem load_graceful_witness :
    loadChunksAndEmbeddings
      (⟨true, [("d", ⟨some ⟨none, 1⟩, some ⟨some [[2]], 1⟩, some ⟨some 7, 1⟩⟩)]⟩ :
        CacheState Nat Nat Nat) "d" = none ∧
    loadChunksAndEmbeddings
      (⟨true, [("d", ⟨some ⟨none, 1⟩, some ⟨some [[2]], 1⟩, some ⟨some 7, 1⟩⟩)]⟩ :
        CacheState Nat Nat Nat) "missing" = none := by
  constructor
  · exact (load_graceful _ "d").2.1 _ rfl (Or.inl ⟨⟨none, 1⟩, rfl, rfl⟩)
  · exact (load_graceful (⟨true,
      [("d", ⟨some ⟨none, 1⟩, some ⟨some [[2]], 1⟩, some ⟨some 7, 1⟩⟩)]⟩ :
        CacheState Nat Nat Nat) "missing").1 (by decide)

/-- C6: `cache_exists` is true exactly when the entry directory and all three
artifact files exist; deleting only `metadata.json` from an entry that was
complete makes `cache_exists` false and `load` return the absent result, with
no error raised (both functions are total). -/
theorem cacheExists_complete (s : CacheState χ ε μ) (docId : String) :
    (cacheExists s docId = true ↔
      ∃ e, lookupEntry s docId = some e ∧
        e.chunksFile.isSome = true ∧ e.embeddingsFile.isSome = true ∧
        e.metadataFile.isSome = true) ∧
    (cacheExists s docId = true →
      cacheExists (deleteMetadataFile s docId) docId = false ∧
      loadChunksAndEmbeddings (deleteMetadataFile s docId) docId = none) := by
  constructor
  · constructor
    · intro h
      unfold cacheExists at h
      rcases hl : lookupEntry s docId with _ | e <;> rw [hl] at h
      · exact Bool.noConfusion h
      · simp only [Bool.and_eq_true] at h
        exact ⟨e, rfl, h.1.1, h.1.2, h.2⟩
    · rintro ⟨e, he, h1, h2, h3⟩
      simp [cacheExists, he, h1, h2, h3]
  · intro h
    unfold cacheExists at h
    rcases hl : lookupEntry s docId with _ | e <;> rw [hl] at h
    · exact Bool.noConfusion h
    · have hld : lookupDir s.entries docId = some e := hl
      have hx : cacheExists (deleteMetadataFile s docId) docId = false := by
        simp [deleteMetadataFile, hld, cacheExists, lookupEntry, lookupDir_setDir_self]
      refine ⟨hx, ?_⟩
      simp [loadChunksAndEmbeddings, hx]

/-- Witness for C6: deleting only `metadata.json` from a concrete complete
entry makes the existence check false and the load absent. -/
theorem cacheExists_complete_witness :
    cacheExists
      (deleteMetadataFile
        (⟨true, [("d", ⟨some ⟨some [1], 1⟩, some ⟨some [[2]], 1⟩, some ⟨some 3, 1⟩⟩)]⟩ :
          CacheState Nat Nat Nat) "d") "d" = false ∧
    loadChunksAndEmbeddings
      (deleteMetadataFile
        (⟨true, [("d", ⟨some ⟨some [1], 1⟩, some ⟨some [[2]], 1⟩, some ⟨some 3, 1⟩⟩)]⟩ :
          CacheState Nat Nat Nat) "d") "d" = none :=
  (cacheExists_complete
    (⟨true, [("d", ⟨some ⟨some [1], 1⟩, some ⟨some [[2]], 1⟩, some ⟨some 3, 1⟩⟩)]⟩ :
      CacheState Nat Nat Nat) "d").2 (by decide)

/-- C7: statistics never error (the function is total); an empty or
non-existent cache root reports zero documents, zero bytes and no ids; after
saving entries for exactly the identities A and B into an empty cache it
reports two documents whose id list is [A, B], i.e. the set {A, B}. -/
theorem getCacheStats_spec (f32 : ε → ε) (A B : String)
    (c1 c2 : List χ) (e1 e2 : List (List ε)) (m1 m2 : μ)
    (sz1 sz2 : Nat × Nat × Nat) (hAB : A ≠ B)
    (hl1 : c1.length = e1.length) (hr1 : isRectangular e1 = true)
    (hl2 : c2.length = e2.length) (hr2 : isRectangular e2 = true) :
    (∀ s : CacheState χ ε μ, s.rootExists = false → getCacheStats s = ⟨0, 0, []⟩) ∧
    (∀ s : CacheState χ ε μ, s.entries = [] → getCacheStats s = ⟨0, 0, []⟩) ∧
    ((getCacheStats (saveChunksAndEmbeddings f32
        (saveChunksAndEmbeddings f32 (⟨true, []⟩ : CacheState χ ε μ)
          A c1 e1 m1 sz1 none).state
        B c2 e2 m2 sz2 none).state).totalDocuments = 2 ∧
     (getCacheStats (saveChunksAndEmbeddings f32
        (saveChunksAndEmbeddings f32 (⟨true, []⟩ : CacheState χ ε μ)
          A c1 e1 m1 sz1 none).state
        B c2 e2 m2 sz2 none).state).documentIds = [A, B] ∧
     (getCacheStats (saveChunksAndEmbeddings f32
        (saveChunksAndEmbeddings f32 (⟨true, []⟩ : CacheState χ ε μ)
          A c1 e1 m1 sz1 none).state
        B c2 e2 m2 sz2 none).state).documentIds.toFinset = ({A, B} : Finset String)) := by
  refine ⟨?_, ?_, ?_⟩
  · intro s h
    simp [getCacheStats, h]
  · intro s h
    simp [getCacheStats, h]
  · rw [save_success f32 (⟨true, []⟩ : CacheState χ ε μ) A c1 e1 m1 sz1 hl1 hr1]
    rw [save_success f32 _ B c2 e2 m2 sz2 hl2 hr2]
    simp [setDir, getCacheStats, hAB]

/-- Witness for C7 with two concrete saved identities. -/
theorem getCacheStats_spec_witness :
    (getCacheStats (saveChunksAndEmbeddings (fun x => x)
        (saveChunksAndEmbeddings (fun x => x) (⟨true, []⟩ : CacheState Nat Nat Nat)
          "a" [1] [[2]] 0 (1, 1, 1) none).state
        "b" [3] [[4]] 0 (1, 1, 1) none).state).totalDocuments = 2 ∧
    (getCacheStats (saveChunksAndEmbeddings (fun x => x)
        (saveChunksAndEmbeddings (fun x => x) (⟨true, []⟩ : CacheState Nat Nat Nat)
          "a" [1] [[2]] 0 (1, 1, 1) none).state
        "b" [3] [[4]] 0 (1, 1, 1) none).state).documentIds = ["a", "b"] := by
  have h := getCacheStats_spec (fun x : Nat => x) "a" "b" [1] [3] [[2]] [[4]] 0 0
    (1, 1, 1) (1, 1, 1) (by decide) (by decide) (by decide) (by decide) (by decide)
  exact ⟨h.2.2.1, h.2.2.2.1⟩

/-- C8: targeted eviction of an existing entry removes exactly that entry
(reporting one cleared) and leaves every other identity's entry — hence its
`cache_exists` — unchanged; for an absent location it reports zero cleared
with the state untouched and no error (the function is total). -/
theorem clearCache_targeted (s : CacheState χ ε μ) (A : String) (hA : A ≠ "") :
    (∀ e, lookupEntry s A = some e →
      clearCache s (some A) =
        (⟨true, "Cleared cache for document " ++ A, 1⟩,
         ⟨s.rootExists, removeDir s.entries A⟩) ∧
      cacheExists (clearCache s (some A)).2 A = false ∧
      (∀ B, B ≠ A → lookupEntry (clearCache s (some A)).2 B = lookupEntry s B) ∧
      (∀ B, B ≠ A → cacheExists (clearCache s (some A)).2 B = cacheExists s B)) ∧
    (lookupEntry s A = none →
      clearCache s (some A) = (⟨false, "No cache found for document " ++ A, 0⟩, s)) := by
  constructor
  · intro e he
    have he' : lookupDir s.entries A = some e := he
    have hc : clearCache s (some A) =
        (⟨true, "Cleared cache for document " ++ A, 1⟩,
         ⟨s.rootExists, removeDir s.entries A⟩) := by
      simp [clearCache, hA, he']
    refine ⟨hc, ?_, ?_, ?_⟩
    · rw [hc]
      simp [cacheExists, lookupEntry, lookupDir_removeDir_self]
    · intro B hB
      rw [hc]
      show lookupDir (removeDir s.entries A) B = lookupDir s.entries B
      exact lookupDir_removeDir_ne s.entries A B hB
    · intro B hB
      rw [hc]
      simp only [cacheExists, lookupEntry]
      rw [show lookupDir (removeDir s.entries A) B = lookupDir s.entries B from
        lookupDir_removeDir_ne s.entries A B hB]
  · intro he
    have he' : lookupDir s.entries A = none := he
    simp [clearCache, hA, he']

/-- Witness for C8 on a cache holding entries for "a" and "b": evicting "a"
reports one cleared, "a" stops existing, "b" is untouched; evicting the
absent "c" reports zero cleared with the state unchanged. -/
theorem clearCache_targeted_witness :
    clearCache
      (⟨true, [("a", ⟨some ⟨some [1], 1⟩, some ⟨some [[2]], 1⟩, some ⟨some 3, 1⟩⟩),
               ("b", ⟨some ⟨some [4], 1⟩, some ⟨some [[5]], 1⟩, some ⟨some 6, 1⟩⟩)]⟩ :
        CacheState Nat Nat Nat) (some "a") =
      (⟨true, "Cleared cache for document " ++ "a", 1⟩,
       ⟨true, removeDir
         [("a", ⟨some ⟨some [1], 1⟩, some ⟨some [[2]], 1⟩, some ⟨some 3, 1⟩⟩),
          ("b", ⟨some ⟨some [4], 1⟩, some ⟨some [[5]], 1⟩, some ⟨some 6, 1⟩⟩)] "a"⟩) ∧
    cacheExists (clearCache
      (⟨true, [("a", ⟨some ⟨some [1], 1⟩, some ⟨some [[2]], 1⟩, some ⟨some 3, 1⟩⟩),
               ("b", ⟨some ⟨some [4], 1⟩, some ⟨some [[5]], 1⟩, some ⟨some 6, 1⟩⟩)]⟩ :
        CacheState Nat Nat Nat) (some "a")).2 "b" = cacheExists
      (⟨true, [("a", ⟨some ⟨some [1], 1⟩, some ⟨some [[2]], 1⟩, some ⟨some 3, 1⟩⟩),
               ("b", ⟨some ⟨some [4], 1⟩, some ⟨some [[5]], 1⟩, some ⟨some 6, 1⟩⟩)]⟩ :
        CacheState Nat Nat Nat) "b" ∧
    clearCache
      (⟨true, [("a", ⟨some ⟨some [1], 1⟩, some ⟨some [[2]], 1⟩, some ⟨some 3, 1⟩⟩),
               ("b", ⟨some ⟨some [4], 1⟩, some ⟨some [[5]], 1⟩, some ⟨some 6, 1⟩⟩)]⟩ :
        CacheState Nat Nat Nat) (some "c") =
      (⟨false, "No cache found for document " ++ "c", 0⟩,
       ⟨true, [("a", ⟨some ⟨some [1], 1⟩, some ⟨some [[2]], 1⟩, some ⟨some 3, 1⟩⟩),
               ("b", ⟨some ⟨some [4], 1⟩, some ⟨some [[5]], 1⟩, some ⟨some 6, 1⟩⟩)]⟩) := by
  have h₁ := (clearCache_targeted
    (⟨true, [("a", ⟨some ⟨some [1], 1⟩, some ⟨some [[2]], 1⟩, some ⟨some 3, 1⟩⟩),
             ("b", ⟨some ⟨some [4], 1⟩, some ⟨some [[5]], 1⟩, some ⟨some 6, 1⟩⟩)]⟩ :
      CacheState Nat Nat Nat) "a" (by decide)).1 _ rfl
  have h₂ := (clearCache_targeted
    (⟨true, [("a", ⟨some ⟨some [1], 1⟩, some ⟨some [[2]], 1⟩, some ⟨some 3, 1⟩⟩),
             ("b", ⟨some ⟨some [4], 1⟩, some ⟨some [[5]], 1⟩, some ⟨some 6, 1⟩⟩)]⟩ :
      CacheState Nat Nat Nat) "c" (by decide)).2 rfl
  exact ⟨h₁.1, h₁.2.2.2 "b" (by decide), h₂⟩

/-- C9 counterexample: from a state where the cache root directory does not
exist (it can be deleted externally; `get_cache_stats` handles exactly this
state), clear-all does not recreate the root, because the
`rmtree` + `mkdir` pair only runs under `if self.cache_dir.exists():` — so
the claim's "afterward ... the cache root directory still exists" is false
there. -/
theorem clearCache_total_counterexample :
    ((clearCache (⟨false, []⟩ : CacheState Nat Nat Nat) none).2).rootExists = false := by
  simp [clearCache, getCacheStats]

/-- C9 (amended): when the cache root exists, clear-all removes the root and
recreates it empty, reports the previous `get_cache_stats` entry count as the
number cleared, and afterwards statistics report zero documents while the
root still exists; when the root does not exist, the source leaves it absent
(see the counterexample). -/
theorem clearCache_total_spec (s : CacheState χ ε μ) (h : s.rootExists = true) :
    clearCache s none =
      (⟨true, "Cleared entire cache", (getCacheStats s).totalDocuments⟩, ⟨true, []⟩) ∧
    getCacheStats (clearCache s none).2 = ⟨0, 0, []⟩ ∧
    ((clearCache s none).2).rootExists = true := by
  have hc : clearCache s none =
      (⟨true, "Cleared entire cache", (getCacheStats s).totalDocuments⟩, ⟨true, []⟩) := by
    simp [clearCache, h]
  refine ⟨hc, ?_, ?_⟩
  · rw [hc]
    simp [getCacheStats]
  · rw [hc]

/-- Witness for amended C9 on a one-entry cache. -/
theorem clearCache_total_spec_witness :
    clearCache (⟨true, [("d", ⟨none, none, none⟩)]⟩ : CacheState Nat Nat Nat) none =
      (⟨true, "Cleared entire cache", 1⟩, ⟨true, []⟩) ∧
    getCacheStats
      (clearCache (⟨true, [("d", ⟨none, none, none⟩)]⟩ : CacheState Nat Nat Nat) none).2 =
      ⟨0, 0, []⟩ := by
  have h := clearCache_total_spec
    (⟨true, [("d", ⟨none, none, none⟩)]⟩ : CacheState Nat Nat Nat) rfl
  refine ⟨?_, h.2.1⟩
  have h1 := h.1
  simpa [getCacheStats] using h1

/-- C10 (implicit): statistics count every immediate subdirectory of the
cache root as a document — the ids of incomplete or corrupt entries (for
which `cache_exists` is false and load is absent) included — so
`total_documents` can strictly exceed the number of loadable entries. -/
theorem getCacheStats_counts_incomplete (s : CacheState χ ε μ)
    (h : s.rootExists = true) :
    (getCacheStats s).totalDocuments = s.entries.length ∧
    (getCacheStats s).documentIds = s.entries.map (fun p => p.1) ∧
    (∀ id e, (id, e) ∈ s.entries → id ∈ (getCacheStats s).documentIds) ∧
    (∃ s' : CacheState χ ε μ,
      cacheExists s' "d" = false ∧
      "d" ∈ (getCacheStats s').documentIds ∧
      loadableCount s' < (getCacheStats s').totalDocuments) := by
  refine ⟨by simp [getCacheStats, h], by simp [getCacheStats, h], ?_, ?_⟩
  · intro id e hm
    simp only [getCacheStats, h, Bool.true_eq_false, if_false, List.mem_map]
    exact ⟨(id, e), hm, rfl⟩
  · refine ⟨⟨true, [("d", ⟨none, none, none⟩)]⟩, ?_, ?_, ?_⟩
    · simp [cacheExists, lookupEntry, lookupDir]
    · simp [getCacheStats]
    · simp [loadableCount, getCacheStats, loadChunksAndEmbeddings, cacheExists,
        lookupEntry, lookupDir]

/-- Witness for C10 on a cache holding one complete and one incomplete
entry: both ids are counted while only one loads. -/
theorem getCacheStats_counts_incomplete_witness :
    (getCacheStats
      (⟨true, [("a", ⟨some ⟨some [1], 1⟩, some ⟨some [[2]], 1⟩, some ⟨some 3, 1⟩⟩),
               ("d", ⟨none, none, none⟩)]⟩ : CacheState Nat Nat Nat)).totalDocuments = 2 ∧
    (getCacheStats
      (⟨true, [("a", ⟨some ⟨some [1], 1⟩, some ⟨some [[2]], 1⟩, some ⟨some 3, 1⟩⟩),
               ("d", ⟨none, none, none⟩)]⟩ : CacheState Nat Nat Nat)).documentIds =
      ["a", "d"] := by
  have h := getCacheStats_counts_incomplete
    (⟨true, [("a", ⟨some ⟨some [1], 1⟩, some ⟨some [[2]], 1⟩, some ⟨some 3, 1⟩⟩),
             ("d", ⟨none, none, none⟩)]⟩ : CacheState Nat Nat Nat) rfl
  exact ⟨h.1, h.2.1⟩
